import Mathlib

/-!
# Content Library path resolution (`builder/vsphere/driver/library.go`)

A shallow embedding of the Go package `driver`, file `library.go`, and the
properties of its path resolution proved over that embedding.

Modelling conventions.

* A Go `string` is a `List Char` (`GoString`).  The source inspects strings only
  through the ASCII characters `/` and `.`, through equality and through
  concatenation.
* A Go `error` value is a `GoError` carrying its message; a nil error is `none`.
* The remote services the driver talks to (REST login/logout, the library
  manager, the datastore lookups) are fields of `VCenterDriver`; each takes the
  state of the outside world and returns its answer together with the new world,
  so a service may answer differently from one call to the next.
  A service that returns a value and an error answers `Except GoError α`: either
  a non-nil error or a value (for `GetLibraryByName` a non-nil `*library.Library`,
  as govmomi returns it).
* Every call to such a service and every `log.Printf` line is recorded, in
  program order, in the `events` of a `Run`; of a log line only the formatted
  message is kept.
* A Go run-time panic (slice index out of range) is the `Outcome.panicked` result.
-/

namespace driver

/-- Go `string`. -/
abbrev GoString := List Char

/-- Go `error` (non-nil); `Option GoError` is a possibly nil `error`. -/
structure GoError where
  msg : GoString
deriving DecidableEq, Repr

/-- Result of running a Go function body: it returns a value or it panics. -/
inductive Outcome (α : Type) where
  | returned (v : α)
  | panicked (reason : GoString)
deriving DecidableEq, Repr

/-! ## Go standard library: `strings`, `path` -/

namespace strings

/-- Go `strings.TrimLeft(s, cutset)`: `s` without its leading characters that occur in `cutset`. -/
def TrimLeft (s cutset : GoString) : GoString :=
  s.dropWhile (fun c => cutset.contains c)

/-- Pieces of `s` between occurrences of `sep`; `acc` is the current piece, reversed. -/
def splitFrom (sep : Char) : GoString → GoString → List GoString
  | acc, [] => [acc.reverse]
  | acc, c :: cs =>
    if c = sep then acc.reverse :: splitFrom sep [] cs else splitFrom sep (c :: acc) cs

/-- Go `strings.Split(s, sep)` for a one-character separator, the only form the
source uses (`"/"`).  `Split "" sep` is the one-element slice `[""]`. -/
def Split (s : GoString) (sep : Char) : List GoString :=
  splitFrom sep [] s

/-- Go `strings.Join(elems, sep)`. -/
def Join : List GoString → GoString → GoString
  | [], _ => []
  | [a], _ => a
  | a :: b :: rest, sep => a ++ sep ++ Join (b :: rest) sep

end strings

namespace path

/-- The inner loop of the `..` case of `path.Clean`:
`for out.w > dotdot && out.index(out.w) != '/' { out.w-- }`, started at `w`. -/
def backtrack (buf : GoString) (dotdot : Nat) : Nat → Nat
  | 0 => 0
  | w + 1 =>
    if w + 1 > dotdot ∧ buf.get? (w + 1) ≠ some '/' then backtrack buf dotdot w else w + 1

/-- The main loop `for r < n { ... }` of Go `path.Clean`.  `rest` is `path[r:]`,
`out` is the content `[0:w]` of the output buffer (Go's `lazybuf`).  Every iteration consumes at least one
character of `rest`, so `fuel = len(path)` iterations are enough; `none` is
returned only if the fuel runs out first. -/
def cleanLoop (rooted : Bool) : Nat → GoString → GoString → Nat → Option GoString
  | _, [], out, _ => some out
  | 0, _ :: _, _, _ => none
  | fuel + 1, c :: rest, out, dotdot =>
    if c = '/' then
      -- empty path element
      cleanLoop rooted fuel rest out dotdot
    else if c = '.' ∧ (rest = [] ∨ rest.head? = some '/') then
      -- . element
      cleanLoop rooted fuel rest out dotdot
    else if c = '.' ∧ rest.head? = some '.' ∧ (rest.tail = [] ∨ rest.tail.head? = some '/') then
      -- .. element: remove to last /
      if out.length > dotdot then
        cleanLoop rooted fuel rest.tail (out.take (backtrack out dotdot (out.length - 1))) dotdot
      else if !rooted then
        let out1 := if out.length > 0 then out ++ ['/'] else out
        let out2 := out1 ++ ['.', '.']
        cleanLoop rooted fuel rest.tail out2 out2.length
      else
        cleanLoop rooted fuel rest.tail out dotdot
    else
      -- real path element: add slash if needed, copy element
      let out1 :=
        if (rooted ∧ out.length ≠ 1) ∨ (¬ rooted ∧ out.length ≠ 0) then out ++ ['/'] else out
      cleanLoop rooted fuel ((c :: rest).dropWhile (fun x => x ≠ '/'))
        (out1 ++ (c :: rest).takeWhile (fun x => x ≠ '/')) dotdot

/-- Go `path.Clean(path)`. -/
def Clean (path : GoString) : GoString :=
  if path = [] then ['.']
  else
    let rooted : Bool := path.head? = some '/'
    let start := if rooted then cleanLoop rooted path.length path.tail ['/'] 1
                 else cleanLoop rooted path.length path [] 0
    match start with
    | some out => if out.length = 0 then ['.'] else out
    | none => path

/-- Go `path.Join(elem...)`: the elements from the first non-empty one on are
joined with `/` and the result is cleaned; `""` when every element is empty. -/
def Join (elem : List GoString) : GoString :=
  match elem.dropWhile (fun e => e = []) with
  | [] => []
  | rest => Clean (strings.Join rest ['/'])

end path

/-! ## govmomi `vapi/library` records (the fields the driver reads) -/

namespace library

/-- Entry of `library.Library.Storage`; only `DatastoreID` is read by the driver. -/
structure StorageBackings where
  DatastoreID : GoString
deriving DecidableEq, Repr

/-- Record `library.Library` of govmomi. -/
structure Library where
  ID : GoString
  Name : GoString
  Storage : List StorageBackings
deriving DecidableEq, Repr

/-- Record `library.Item` of govmomi. -/
structure Item where
  ID : GoString
  Name : GoString
deriving DecidableEq, Repr

end library

/-! ## The driver and its collaborators -/

/-- What a run does that an observer can see: service calls and log lines, in order. -/
inductive Event where
  | Printf (line : GoString)
  | Login
  | Logout
  | GetLibraryByName (name : GoString)
  | GetLibraries
  | GetLibraryItems (libraryId : GoString)
  | GetDatastoreName (id : GoString)
  | GetDatastoreFilePath (id dir name : GoString)
deriving DecidableEq, Repr

/-- The driver: the services `library.go` calls, each a transition of the
outside world `σ`.  `Login`/`Logout` are `d.restClient.Login/Logout`,
`GetLibraryByName`/`GetLibraries`/`GetLibraryItems` are the methods of
`library.NewManager(d.restClient.client)`, `GetDatastoreName` and
`GetDatastoreFilePath` are driver methods defined outside `library.go`. -/
structure VCenterDriver (σ : Type) where
  Login : σ → Option GoError × σ
  Logout : σ → Option GoError × σ
  GetLibraryByName : GoString → σ → Except GoError library.Library × σ
  GetLibraries : σ → Except GoError (List library.Library) × σ
  GetLibraryItems : GoString → σ → Except GoError (List library.Item) × σ
  GetDatastoreName : GoString → σ → Except GoError GoString × σ
  GetDatastoreFilePath : GoString → GoString → GoString → σ → Except GoError GoString × σ

/-- Go `type Library struct { driver *VCenterDriver; library *library.Library }`. -/
structure Library (σ : Type) where
  driver : VCenterDriver σ
  library : library.Library

/-- A finished run of a driver method: its result, the world it leaves, what it did. -/
structure Run (σ α : Type) where
  result : α
  world : σ
  events : List Event

/-- The `for _, cl := range cls { log.Printf("  found CL %s", cl.Name) }` loop. -/
def logLibraries (cls : List library.Library) : List Event :=
  cls.map (fun cl => Event.Printf ("  found CL ".toList ++ cl.Name))

/-- Go `func (d *VCenterDriver) FindContentLibraryByName(name string) (*Library, error)`. -/
def FindContentLibraryByName {σ : Type} (d : VCenterDriver σ) (name : GoString) (w : σ) :
    Run σ (Except GoError (Library σ)) :=
  match d.GetLibraryByName name w with
  | (.error err, w1) =>
    match d.GetLibraries w1 with
    | (.error err2, w2) =>
      ⟨.error err, w2,
        [.GetLibraryByName name, .GetLibraries,
         .Printf ("WARN: Could not list the Content Libraries: ".toList ++ err2.msg)]⟩
    | (.ok cls, w2) =>
      ⟨.error err, w2,
        [.GetLibraryByName name, .GetLibraries,
         .Printf ("TRACE: There are ".toList ++ (Nat.repr cls.length).toList
                    ++ " Content Libraries:".toList)]
        ++ logLibraries cls⟩
  | (.ok l, w1) => ⟨.ok ⟨d, l⟩, w1, [.GetLibraryByName name]⟩

/-- The `for _, item := range items { ... }` loop of `FindContentLibraryItem`:
returns the first item named `name`, or else the names seen (`allNames`). -/
def scanItems (name : GoString) : List library.Item → List GoString →
    Except (List GoString) library.Item
  | [], allNames => .error allNames
  | item :: items, allNames =>
    if item.Name = name then .ok item else scanItems name items (allNames ++ [item.Name])

/-- Go `func (d *VCenterDriver) FindContentLibraryItem(libraryId string, name string) (*library.Item, error)`. -/
def FindContentLibraryItem {σ : Type} (d : VCenterDriver σ) (libraryId name : GoString) (w : σ) :
    Run σ (Except GoError library.Item) :=
  match d.GetLibraryItems libraryId w with
  | (.error err, w1) => ⟨.error err, w1, [.GetLibraryItems libraryId]⟩
  | (.ok items, w1) =>
    match scanItems name items [] with
    | .ok item => ⟨.ok item, w1, [.GetLibraryItems libraryId]⟩
    | .error allNames =>
      ⟨.error ⟨"Item ".toList ++ name ++ " not found - known items: ".toList
                ++ strings.Join allNames ", ".toList⟩,
        w1, [.GetLibraryItems libraryId]⟩

/-- Go `type LibraryFilePath struct { path string }`. -/
structure LibraryFilePath where
  path : GoString
deriving DecidableEq, Repr

namespace LibraryFilePath

/-- Go `func (l *LibraryFilePath) Validate() error`: the receiver after the call
(its `path` is overwritten with the trimmed one) and the error. -/
def Validate (l : LibraryFilePath) : LibraryFilePath × Option GoError :=
  let l1 : LibraryFilePath := { path := strings.TrimLeft l.path "/".toList }
  let parts := strings.Split l1.path '/'
  if parts.length ≠ 3 then
    (l1, some ⟨("Not a valid Content Library File path. The path must contain the nanmes " ++
                "for the library, item and file.").toList⟩)
  else (l1, none)

/-- Go slice indexing `parts[i]`, which panics when `i` is out of range. -/
def index (parts : List GoString) (i : Nat) : Outcome GoString :=
  match parts.get? i with
  | some s => .returned s
  | none => .panicked ("runtime error: index out of range [".toList ++ (Nat.repr i).toList
              ++ "] with length ".toList ++ (Nat.repr parts.length).toList)

/-- Go `func (l *LibraryFilePath) GetLibraryName() string`. -/
def GetLibraryName (l : LibraryFilePath) : Outcome GoString :=
  index (strings.Split l.path '/') 0

/-- Go `func (l *LibraryFilePath) GetLibraryItemName() string`. -/
def GetLibraryItemName (l : LibraryFilePath) : Outcome GoString :=
  index (strings.Split l.path '/') 1

/-- Go `func (l *LibraryFilePath) GetFileName() string`. -/
def GetFileName (l : LibraryFilePath) : Outcome GoString :=
  index (strings.Split l.path '/') 2

end LibraryFilePath

/-- Go slice indexing `lib.library.Storage[0]`, which panics on an empty slice. -/
def firstStorage (storage : List library.StorageBackings) : Outcome library.StorageBackings :=
  match storage with
  | st :: _ => .returned st
  | [] => .panicked "runtime error: index out of range [0] with length 0".toList

/-- Go `fmt.Sprintf("[%s] contentlib-%s/%s", datastoreName, libraryId, itemId)`. -/
def libItemDirOf (datastoreName libraryId itemId : GoString) : GoString :=
  "[".toList ++ datastoreName ++ "] contentlib-".toList ++ libraryId ++ "/".toList ++ itemId

/-- Lines 84-98 of `FindContentLibraryFileDatastorePath`: from the datastore-name
lookup to the final `return`, run after the events `ev` in world `w`. -/
def resolveInDatastore {σ : Type} (d : VCenterDriver σ) (isoPath libraryName isoFile : GoString)
    (lib : Library σ) (libItem : library.Item) (w : σ) (ev : List Event) :
    Run σ (Outcome (GoString × Option GoError)) :=
  match firstStorage lib.library.Storage with
  | .panicked reason => ⟨.panicked reason, w, ev⟩
  | .returned st =>
    match d.GetDatastoreName st.DatastoreID w with
    | (.error err, w1) =>
      ⟨.returned (isoPath, some err), w1,
        ev ++ [.GetDatastoreName st.DatastoreID,
               .Printf ("[WARN] Couldn't find datastore name for library ".toList ++ libraryName)]⟩
    | (.ok datastoreName, w1) =>
      let libItemDir := libItemDirOf datastoreName lib.library.ID libItem.ID
      match d.GetDatastoreFilePath st.DatastoreID libItemDir isoFile w1 with
      | (.error err, w2) =>
        ⟨.returned (isoPath, some err), w2,
          ev ++ [.GetDatastoreName st.DatastoreID,
                 .GetDatastoreFilePath st.DatastoreID libItemDir isoFile,
                 .Printf ("[WARN] Couldn't find datastore ID path for ".toList ++ isoFile)]⟩
      | (.ok isoFilePath, w2) =>
        ⟨.returned (path.Join [libItemDir, isoFilePath], none), (d.Logout w2).2,
          ev ++ [.GetDatastoreName st.DatastoreID,
                 .GetDatastoreFilePath st.DatastoreID libItemDir isoFile,
                 .Logout]⟩

/-- Lines 72-98 of `FindContentLibraryFileDatastorePath`: the lookups, once the
three names have been read off the path. -/
def resolveNames {σ : Type} (d : VCenterDriver σ) (isoPath libraryName itemName isoFile : GoString)
    (w : σ) (ev : List Event) : Run σ (Outcome (GoString × Option GoError)) :=
  let r1 := FindContentLibraryByName d libraryName w
  match r1.result with
  | .error err =>
    ⟨.returned (isoPath, some err), r1.world,
      ev ++ r1.events ++
        [.Printf ("ISO path assumed to not be a Content Library path as no Content Library named '".toList
                    ++ libraryName ++ "' can be found: ".toList ++ err.msg)]⟩
  | .ok lib =>
    let ev1 := ev ++ r1.events ++
      [.Printf "ISO path identified as a Content Library path".toList,
       .Printf "Finding the equivalent datastore path for the Content Library ISO file path".toList]
    let r2 := FindContentLibraryItem d lib.library.ID itemName r1.world
    match r2.result with
    | .error err =>
      ⟨.returned (isoPath, some err), r2.world,
        ev1 ++ r2.events ++
          [.Printf ("[WARN] Couldn't find item ".toList ++ itemName ++ ": ".toList ++ err.msg)]⟩
    | .ok libItem =>
      resolveInDatastore d isoPath libraryName isoFile lib libItem r2.world (ev1 ++ r2.events)

/-- Go `func (d *VCenterDriver) FindContentLibraryFileDatastorePath(isoPath string) (string, error)`. -/
def FindContentLibraryFileDatastorePath {σ : Type} (d : VCenterDriver σ) (isoPath : GoString)
    (w : σ) : Run σ (Outcome (GoString × Option GoError)) :=
  let ev0 : List Event := [.Printf "Check if ISO path is a Content Library path".toList, .Login]
  match d.Login w with
  | (some err, w1) =>
    ⟨.returned (isoPath, some err), w1,
      ev0 ++ [.Printf ("vCenter client not available. ISO path not identified as a " ++
                       "Content Library path").toList]⟩
  | (none, w1) =>
    match (LibraryFilePath.mk isoPath).Validate with
    | (_, some err) =>
      ⟨.returned (isoPath, some err), w1,
        ev0 ++ [.Printf ("ISO path not identified as a Content Library path as it does not " ++
                         "follow the pattern libraryName/itemName/itemFilename").toList]⟩
    | (libraryFilePath, none) =>
      match libraryFilePath.GetLibraryName with
      | .panicked reason => ⟨.panicked reason, w1, ev0⟩
      | .returned libraryName =>
        match libraryFilePath.GetLibraryItemName with
        | .panicked reason => ⟨.panicked reason, w1, ev0⟩
        | .returned itemName =>
          match libraryFilePath.GetFileName with
          | .panicked reason => ⟨.panicked reason, w1, ev0⟩
          | .returned isoFile => resolveNames d isoPath libraryName itemName isoFile w1 ev0

/-! ## A concrete vCenter for the end-to-end scenarios -/

/-- A small vCenter: one library `MyLib` (id `lib-42`), whose storage list, item
listing and answers are set by the fields.  Its world counts the remote calls. -/
structure Scenario where
  loginErr : Option GoError
  logoutErr : Option GoError
  storage : List library.StorageBackings
  items : List library.Item
  listErr : Option GoError
  fileAnswer : GoString → GoString

namespace Scenario

/-- The library record the scenario serves. -/
def myLib (sc : Scenario) : library.Library :=
  { ID := "lib-42".toList, Name := "MyLib".toList, Storage := sc.storage }

/-- The driver of the scenario. -/
def driver (sc : Scenario) : VCenterDriver Nat where
  Login w := (sc.loginErr, w + 1)
  Logout w := (sc.logoutErr, w + 1)
  GetLibraryByName name w :=
    if name = "MyLib".toList then (.ok sc.myLib, w + 1)
    else (.error ⟨"library name (".toList ++ name ++ ") not found".toList⟩, w + 1)
  GetLibraries w :=
    match sc.listErr with
    | some err => (.error err, w + 1)
    | none => (.ok [sc.myLib], w + 1)
  GetLibraryItems libraryId w :=
    if libraryId = "lib-42".toList then (.ok sc.items, w + 1)
    else (.error ⟨"404 Not Found".toList⟩, w + 1)
  GetDatastoreName id w :=
    if id = "ds-1".toList then (.ok "datastore1".toList, w + 1)
    else (.error ⟨"datastore not found".toList⟩, w + 1)
  GetDatastoreFilePath id _ name w :=
    if id = "ds-1".toList then (.ok (sc.fileAnswer name), w + 1)
    else (.error ⟨"datastore not found".toList⟩, w + 1)

end Scenario

/-- The scenario of the specification: `MyLib` stored on `ds-1`, one item
`UbuntuISO` (id `item-7`), the file lookup answering the file name unchanged. -/
def ubuntu : Scenario :=
  { loginErr := none, logoutErr := none,
    storage := [⟨"ds-1".toList⟩],
    items := [⟨"item-7".toList, "UbuntuISO".toList⟩],
    listErr := none,
    fileAnswer := fun name => name }

end driver

/-! ## Facts about the string primitives -/

namespace driver

namespace strings

theorem splitFrom_length (sep : Char) (s acc : GoString) :
    (splitFrom sep acc s).length = s.count sep + 1 := by
  induction s generalizing acc with
  | nil => simp [splitFrom]
  | cons c cs ih =>
    by_cases h : c = sep
    · subst h
      simp [splitFrom, ih]
    · have h2 : ¬ (c == sep) = true := by simpa using h
      simp [splitFrom, h, ih, List.count_cons, h2]

theorem splitFrom_of_not_mem (sep : Char) (s acc : GoString) (h : sep ∉ s) :
    splitFrom sep acc s = [acc.reverse ++ s] := by
  induction s generalizing acc with
  | nil => simp [splitFrom]
  | cons c cs ih =>
    have hc : c ≠ sep := fun e => h (by simp [e])
    have hcs : sep ∉ cs := fun e => h (by simp [e])
    simp [splitFrom, hc, ih _ hcs]

theorem splitFrom_append_sep (sep : Char) (a rest acc : GoString) (h : sep ∉ a) :
    splitFrom sep acc (a ++ sep :: rest) = (acc.reverse ++ a) :: splitFrom sep [] rest := by
  induction a generalizing acc with
  | nil => simp [splitFrom]
  | cons c cs ih =>
    have hc : c ≠ sep := fun e => h (by simp [e])
    have hcs : sep ∉ cs := fun e => h (by simp [e])
    simp [splitFrom, hc, ih _ hcs]

theorem splitFrom_head (sep : Char) (s acc : GoString) :
    ∃ t rest, splitFrom sep acc s = (acc.reverse ++ t) :: rest := by
  induction s generalizing acc with
  | nil => exact ⟨[], [], by simp [splitFrom]⟩
  | cons c cs ih =>
    by_cases h : c = sep
    · exact ⟨[], splitFrom sep [] cs, by simp [splitFrom, h]⟩
    · obtain ⟨t, rest, e⟩ := ih (c :: acc)
      exact ⟨c :: t, rest, by simp [splitFrom, h, e]⟩

theorem not_mem_of_mem_splitFrom (sep : Char) (s acc p : GoString) (hacc : sep ∉ acc)
    (hp : p ∈ splitFrom sep acc s) : sep ∉ p := by
  induction s generalizing acc with
  | nil =>
    simp [splitFrom] at hp
    subst hp
    simpa using hacc
  | cons c cs ih =>
    by_cases h : c = sep
    · simp [splitFrom, h] at hp
      rcases hp with hp | hp
      · subst hp
        simpa using hacc
      · exact ih [] (by simp) hp
    · simp only [splitFrom, h, if_false] at hp
      refine ih (c :: acc) ?_ hp
      simp only [List.mem_cons, not_or]
      exact ⟨fun e => h e.symm, hacc⟩

theorem Join_splitFrom (sep : Char) (s acc : GoString) :
    Join (splitFrom sep acc s) [sep] = acc.reverse ++ s := by
  induction s generalizing acc with
  | nil => simp [splitFrom, Join]
  | cons c cs ih =>
    by_cases h : c = sep
    · subst h
      obtain ⟨t, rest, e⟩ := splitFrom_head c cs []
      have := ih []
      rw [e] at this
      simp only [List.reverse_nil, List.nil_append] at this e
      simp [splitFrom, e, Join, this]
    · simp [splitFrom, h, ih]

theorem TrimLeft_slash (s : GoString) :
    TrimLeft s "/".toList = s.dropWhile (fun c => c == '/') := by
  unfold TrimLeft
  congr 1
  funext c
  by_cases h : c = '/'
  · subst h
    rfl
  · have h2 : (c == '/') = false := by simpa using h
    simp [List.contains, List.elem, h2]

theorem TrimLeft_head (s : GoString) : (TrimLeft s "/".toList).head? ≠ some '/' := by
  rw [TrimLeft_slash]
  have := List.head?_dropWhile_not (fun c => c == '/') s
  intro h
  rw [h] at this
  simp at this

theorem TrimLeft_replicate (n : Nat) (s : GoString) (h : s.head? ≠ some '/') :
    TrimLeft (List.replicate n '/' ++ s) "/".toList = s := by
  rw [TrimLeft_slash]
  induction n with
  | zero =>
    cases s with
    | nil => rfl
    | cons c cs =>
      have h1 : c ≠ '/' := by simpa using h
      have h2 : (c == '/') = false := by simpa using h1
      simp [List.dropWhile, h2]
  | succ n ih => simpa [List.replicate_succ, List.dropWhile] using ih

end strings

end driver


/-! ## The reference parser: `LibraryFilePath` -/

namespace driver

namespace LibraryFilePath

theorem Validate_path (s : GoString) :
    ((LibraryFilePath.mk s).Validate).1.path = strings.TrimLeft s "/".toList := by
  unfold Validate
  simp only []
  split <;> rfl

theorem Validate_err_none_iff (s : GoString) :
    ((LibraryFilePath.mk s).Validate).2 = none ↔
      (strings.Split (strings.TrimLeft s "/".toList) '/').length = 3 := by
  unfold Validate
  simp only []
  split <;> simp_all

theorem Validate_parts (s : GoString) (h : ((LibraryFilePath.mk s).Validate).2 = none) :
    ∃ a b c, strings.Split (strings.TrimLeft s "/".toList) '/' = [a, b, c] := by
  rw [Validate_err_none_iff] at h
  match hs : strings.Split (strings.TrimLeft s "/".toList) '/', h with
  | [a, b, c], _ => exact ⟨a, b, c, rfl⟩

theorem getters_of_parts (l : LibraryFilePath) (a b c : GoString)
    (h : strings.Split l.path '/' = [a, b, c]) :
    l.GetLibraryName = .returned a ∧ l.GetLibraryItemName = .returned b ∧
      l.GetFileName = .returned c := by
  simp [GetLibraryName, GetLibraryItemName, GetFileName, index, h]

end LibraryFilePath

/-- C4: `Validate` returns an error exactly when the input, with its leading
slashes removed, does not split on `/` into three segments (the segments are one
more than the slashes left, so the empty string and a string of only slashes
fail); and for every such input the path resolution returns the input unchanged,
with an error, whatever the collaborators answer. -/
theorem Validate_fails_iff_not_three_segments (s : GoString) (n : Nat) :
    (((LibraryFilePath.mk s).Validate).2.isSome ↔
        (strings.Split (strings.TrimLeft s "/".toList) '/').length ≠ 3)
    ∧ (strings.Split (strings.TrimLeft s "/".toList) '/').length
        = (strings.TrimLeft s "/".toList).count '/' + 1
    ∧ ((LibraryFilePath.mk (List.replicate n '/')).Validate).2.isSome
    ∧ (∀ (σ : Type) (d : VCenterDriver σ) (w : σ),
        (strings.Split (strings.TrimLeft s "/".toList) '/').length ≠ 3 →
        ∃ e, (FindContentLibraryFileDatastorePath d s w).result = .returned (s, some e)) := by
  have hiff : ((LibraryFilePath.mk s).Validate).2.isSome ↔
      (strings.Split (strings.TrimLeft s "/".toList) '/').length ≠ 3 := by
    rw [Ne, ← LibraryFilePath.Validate_err_none_iff, ← Option.not_isSome_iff_eq_none, not_not]
  refine ⟨hiff, strings.splitFrom_length _ _ _, ?_, ?_⟩
  · have h0 : strings.TrimLeft (List.replicate n '/') "/".toList = [] := by
      have := strings.TrimLeft_replicate n [] (by simp)
      simpa using this
    have h1 : ¬ ((LibraryFilePath.mk (List.replicate n '/')).Validate).2 = none := by
      rw [LibraryFilePath.Validate_err_none_iff, h0]
      decide
    rw [← Option.not_isSome_iff_eq_none, not_not] at h1
    exact h1
  · intro σ d w hlen
    have hsome := hiff.mpr hlen
    unfold FindContentLibraryFileDatastorePath
    simp only []
    split
    · exact ⟨_, rfl⟩
    · split
      · exact ⟨_, rfl⟩
      · rename_i heq
        rw [heq] at hsome
        simp at hsome

/-- Witness for C4 on the one-segment input `plainfile.iso`. -/
theorem Validate_fails_iff_not_three_segments_witness :
    ∃ e, (FindContentLibraryFileDatastorePath ubuntu.driver "plainfile.iso".toList 0).result
      = .returned ("plainfile.iso".toList, some e) :=
  (Validate_fails_iff_not_three_segments "plainfile.iso".toList 0).2.2.2 Nat ubuntu.driver 0
    (by decide)

/-- C5: for slash-free `a`, `b`, `c` with `a` non-empty and any number `n` of
leading slashes, `Validate` accepts `/…/a/b/c` and the three getters then return
`a`, `b` and `c`; the validated receiver is the same as for `a/b/c`. -/
theorem Validate_recovers_components (n : Nat) (a b c : GoString)
    (ha : a ≠ []) (hna : '/' ∉ a) (hnb : '/' ∉ b) (hnc : '/' ∉ c) :
    ((LibraryFilePath.mk
        (List.replicate n '/' ++ (a ++ "/".toList ++ b ++ "/".toList ++ c))).Validate).2 = none
    ∧ ((LibraryFilePath.mk
        (List.replicate n '/' ++ (a ++ "/".toList ++ b ++ "/".toList ++ c))).Validate).1.GetLibraryName
        = .returned a
    ∧ ((LibraryFilePath.mk
        (List.replicate n '/' ++ (a ++ "/".toList ++ b ++ "/".toList ++ c))).Validate).1.GetLibraryItemName
        = .returned b
    ∧ ((LibraryFilePath.mk
        (List.replicate n '/' ++ (a ++ "/".toList ++ b ++ "/".toList ++ c))).Validate).1.GetFileName
        = .returned c
    ∧ (LibraryFilePath.mk
        (List.replicate n '/' ++ (a ++ "/".toList ++ b ++ "/".toList ++ c))).Validate
        = (LibraryFilePath.mk (a ++ "/".toList ++ b ++ "/".toList ++ c)).Validate := by
  have hhead : (a ++ "/".toList ++ b ++ "/".toList ++ c).head? ≠ some '/' := by
    cases a with
    | nil => exact absurd rfl ha
    | cons x xs =>
      have : x ≠ '/' := fun e => hna (by simp [e])
      simpa using this
  have htrim : strings.TrimLeft
      (List.replicate n '/' ++ (a ++ "/".toList ++ b ++ "/".toList ++ c)) "/".toList
      = a ++ "/".toList ++ b ++ "/".toList ++ c := strings.TrimLeft_replicate n _ hhead
  have hsplit : strings.Split (a ++ "/".toList ++ b ++ "/".toList ++ c) '/' = [a, b, c] := by
    have e : a ++ "/".toList ++ b ++ "/".toList ++ c = a ++ '/' :: (b ++ '/' :: c) := by simp
    rw [e]
    unfold strings.Split
    rw [strings.splitFrom_append_sep _ _ _ _ hna, strings.splitFrom_append_sep _ _ _ _ hnb,
      strings.splitFrom_of_not_mem _ _ _ hnc]
    simp
  have hnone : ((LibraryFilePath.mk
      (List.replicate n '/' ++ (a ++ "/".toList ++ b ++ "/".toList ++ c))).Validate).2 = none := by
    rw [LibraryFilePath.Validate_err_none_iff, htrim, hsplit]
    rfl
  have hg := LibraryFilePath.getters_of_parts
    ((LibraryFilePath.mk
      (List.replicate n '/' ++ (a ++ "/".toList ++ b ++ "/".toList ++ c))).Validate).1 a b c
    (by rw [LibraryFilePath.Validate_path, htrim, hsplit])
  refine ⟨hnone, hg.1, hg.2.1, hg.2.2, ?_⟩
  have h0 := strings.TrimLeft_replicate 0 _ hhead
  simp only [List.replicate_zero, List.nil_append] at h0
  unfold LibraryFilePath.Validate
  simp only [htrim, h0]

/-- Witness for C5: `//MyLib/UbuntuISO/ubuntu.iso`. -/
theorem Validate_recovers_components_witness :
    ((LibraryFilePath.mk "//MyLib/UbuntuISO/ubuntu.iso".toList).Validate).1.GetFileName
      = .returned "ubuntu.iso".toList :=
  (Validate_recovers_components 2 "MyLib".toList "UbuntuISO".toList "ubuntu.iso".toList
    (by decide) (by decide) (by decide) (by decide)).2.2.2.1

/-- C8, as the claim states it, fails: `a//c` is accepted by `Validate`, and its
item name is the empty string. -/
theorem Validate_accepts_empty_item_name :
    ((LibraryFilePath.mk "a//c".toList).Validate).2 = none
    ∧ ((LibraryFilePath.mk "a//c".toList).Validate).1.GetLibraryItemName = .returned [] := by
  decide

/-- C8, amended: when `Validate` succeeds the three getters return segments
`a`, `b`, `c` free of `/`, the library name `a` is non-empty, and the trimmed
path is `a/b/c`; nothing is checked about `b` and `c` being non-empty. -/
theorem Validate_fields (s : GoString) (h : ((LibraryFilePath.mk s).Validate).2 = none) :
    ∃ a b c,
      ((LibraryFilePath.mk s).Validate).1.GetLibraryName = .returned a
      ∧ ((LibraryFilePath.mk s).Validate).1.GetLibraryItemName = .returned b
      ∧ ((LibraryFilePath.mk s).Validate).1.GetFileName = .returned c
      ∧ a ≠ [] ∧ '/' ∉ a ∧ '/' ∉ b ∧ '/' ∉ c
      ∧ strings.TrimLeft s "/".toList = a ++ "/".toList ++ b ++ "/".toList ++ c := by
  obtain ⟨a, b, c, hs⟩ := LibraryFilePath.Validate_parts s h
  have hg := LibraryFilePath.getters_of_parts ((LibraryFilePath.mk s).Validate).1 a b c
    (by rw [LibraryFilePath.Validate_path, hs])
  have hmem : ∀ q ∈ [a, b, c], '/' ∉ q := fun q hq =>
    strings.not_mem_of_mem_splitFrom '/' (strings.TrimLeft s "/".toList) [] q (by simp)
      (by unfold strings.Split at hs; rw [hs]; exact hq)
  have hjoin := strings.Join_splitFrom '/' (strings.TrimLeft s "/".toList) []
  unfold strings.Split at hs
  rw [hs] at hjoin
  refine ⟨a, b, c, hg.1, hg.2.1, hg.2.2, ?_, hmem a (by simp), hmem b (by simp),
    hmem c (by simp), ?_⟩
  · intro ha
    have hhead := strings.TrimLeft_head s
    cases ht : strings.TrimLeft s "/".toList with
    | nil =>
      rw [ht] at hs
      simp [strings.splitFrom] at hs
    | cons x xs =>
      rw [ht] at hs hhead
      have hx : x ≠ '/' := by simpa using hhead
      obtain ⟨t, rest, e⟩ := strings.splitFrom_head '/' xs [x]
      simp only [strings.splitFrom, hx, if_false] at hs
      rw [e, ha] at hs
      simp at hs
  · rw [← List.nil_append (strings.TrimLeft s "/".toList)]
    simpa [strings.Join] using hjoin.symm

/-- Witness for the amended C8 on `/MyLib/UbuntuISO/ubuntu.iso`. -/
theorem Validate_fields_witness :
    ∃ a b c,
      ((LibraryFilePath.mk "/MyLib/UbuntuISO/ubuntu.iso".toList).Validate).1.GetLibraryName
        = .returned a
      ∧ ((LibraryFilePath.mk "/MyLib/UbuntuISO/ubuntu.iso".toList).Validate).1.GetLibraryItemName
        = .returned b
      ∧ ((LibraryFilePath.mk "/MyLib/UbuntuISO/ubuntu.iso".toList).Validate).1.GetFileName
        = .returned c
      ∧ a ≠ [] ∧ '/' ∉ a ∧ '/' ∉ b ∧ '/' ∉ c
      ∧ strings.TrimLeft "/MyLib/UbuntuISO/ubuntu.iso".toList "/".toList
          = a ++ "/".toList ++ b ++ "/".toList ++ c :=
  Validate_fields "/MyLib/UbuntuISO/ubuntu.iso".toList (by decide)

end driver

/-! ## The catalogue lookups -/

namespace driver

theorem scanItems_first (name : GoString) (pre : List library.Item) (item : library.Item)
    (post : List library.Item) (allNames : List GoString)
    (hpre : ∀ x ∈ pre, x.Name ≠ name) (hitem : item.Name = name) :
    scanItems name (pre ++ item :: post) allNames = .ok item := by
  induction pre generalizing allNames with
  | nil => simp [scanItems, hitem]
  | cons x xs ih =>
    have hx : x.Name ≠ name := hpre x (by simp)
    have hxs : ∀ y ∈ xs, y.Name ≠ name := fun y hy => hpre y (by simp [hy])
    simp [scanItems, hx, ih _ hxs]

theorem scanItems_none (name : GoString) (items : List library.Item) (allNames : List GoString)
    (h : ∀ x ∈ items, x.Name ≠ name) :
    scanItems name items allNames = .error (allNames ++ items.map (fun x => x.Name)) := by
  induction items generalizing allNames with
  | nil => simp [scanItems]
  | cons x xs ih =>
    have hx : x.Name ≠ name := h x (by simp)
    have hxs : ∀ y ∈ xs, y.Name ≠ name := fun y hy => h y (by simp [hy])
    simp [scanItems, hx, ih _ hxs]

/-- C6: over a successfully fetched item listing, `FindContentLibraryItem`
returns the first item whose `Name` is `name`, with no error; when no item has
that name it returns the error
`Item <name> not found - known items: <all names, in order, joined by ", ">`. -/
theorem FindContentLibraryItem_scan {σ : Type} (d : VCenterDriver σ)
    (libraryId name : GoString) (w w1 : σ) (items : List library.Item)
    (hlist : d.GetLibraryItems libraryId w = (.ok items, w1)) :
    (∀ pre item post, items = pre ++ item :: post → (∀ x ∈ pre, x.Name ≠ name) →
        item.Name = name →
        (FindContentLibraryItem d libraryId name w).result = .ok item)
    ∧ ((∀ x ∈ items, x.Name ≠ name) →
        (FindContentLibraryItem d libraryId name w).result
          = .error ⟨"Item ".toList ++ name ++ " not found - known items: ".toList
              ++ strings.Join (items.map (fun x => x.Name)) ", ".toList⟩) := by
  constructor
  · intro pre item post hitems hpre hitem
    subst hitems
    simp [FindContentLibraryItem, hlist, scanItems_first name pre item post [] hpre hitem]
  · intro hnone
    simp [FindContentLibraryItem, hlist, scanItems_none name items [] hnone]

/-- Witness for C6: in the listing `x, y, z`, the search for `y` gives the `y`
record and the search for `w` gives the error naming `x, y, z`. -/
theorem FindContentLibraryItem_scan_witness :
    (FindContentLibraryItem
      { ubuntu with items := [⟨"1".toList, "x".toList⟩, ⟨"2".toList, "y".toList⟩,
                              ⟨"3".toList, "z".toList⟩] }.driver
      "lib-42".toList "y".toList 0).result = .ok ⟨"2".toList, "y".toList⟩
    ∧ (FindContentLibraryItem
      { ubuntu with items := [⟨"1".toList, "x".toList⟩, ⟨"2".toList, "y".toList⟩,
                              ⟨"3".toList, "z".toList⟩] }.driver
      "lib-42".toList "w".toList 0).result
      = .error ⟨"Item w not found - known items: x, y, z".toList⟩ :=
  ⟨(FindContentLibraryItem_scan
      { ubuntu with items := [⟨"1".toList, "x".toList⟩, ⟨"2".toList, "y".toList⟩,
                              ⟨"3".toList, "z".toList⟩] }.driver
      "lib-42".toList "y".toList 0 1
      [⟨"1".toList, "x".toList⟩, ⟨"2".toList, "y".toList⟩, ⟨"3".toList, "z".toList⟩] rfl).1
      [⟨"1".toList, "x".toList⟩] ⟨"2".toList, "y".toList⟩ [⟨"3".toList, "z".toList⟩]
      rfl (by decide) rfl,
   ((FindContentLibraryItem_scan
      { ubuntu with items := [⟨"1".toList, "x".toList⟩, ⟨"2".toList, "y".toList⟩,
                              ⟨"3".toList, "z".toList⟩] }.driver
      "lib-42".toList "w".toList 0 1
      [⟨"1".toList, "x".toList⟩, ⟨"2".toList, "y".toList⟩, ⟨"3".toList, "z".toList⟩] rfl).2
      (by decide)).trans rfl⟩

/-- C10: when the by-name lookup fails with `e`, `FindContentLibraryByName`
returns no library and the error `e`, whatever the diagnostic listing answers;
when the lookup succeeds it returns that library and makes no further call. -/
theorem FindContentLibraryByName_keeps_lookup_error {σ : Type} (d : VCenterDriver σ)
    (name : GoString) (w : σ) :
    (∀ e w1, d.GetLibraryByName name w = (.error e, w1) →
        ∀ (r : Except GoError (List library.Library)) (w2 : σ), d.GetLibraries w1 = (r, w2) →
        (FindContentLibraryByName d name w).result = .error e
        ∧ (FindContentLibraryByName d name w).world = w2)
    ∧ (∀ l w1, d.GetLibraryByName name w = (.ok l, w1) →
        (∃ lib, (FindContentLibraryByName d name w).result = .ok lib ∧ lib.library = l)
        ∧ (FindContentLibraryByName d name w).world = w1
        ∧ (FindContentLibraryByName d name w).events = [.GetLibraryByName name]) := by
  constructor
  · intro e w1 h r w2 h2
    unfold FindContentLibraryByName
    cases r with
    | error e2 => simp [h, h2]
    | ok cls => simp [h, h2]
  · intro l w1 h
    unfold FindContentLibraryByName
    simp [h]

/-- Witness for C10: the lookup of `NoSuchLib` fails and the diagnostic listing fails too. -/
theorem FindContentLibraryByName_keeps_lookup_error_witness :
    (FindContentLibraryByName
        { ubuntu with listErr := some ⟨"503 Service Unavailable".toList⟩ }.driver
        "NoSuchLib".toList 0).result
        = .error ⟨"library name (NoSuchLib) not found".toList⟩
    ∧ (FindContentLibraryByName
        { ubuntu with listErr := some ⟨"503 Service Unavailable".toList⟩ }.driver
        "NoSuchLib".toList 0).world = 2 :=
  (FindContentLibraryByName_keeps_lookup_error
    { ubuntu with listErr := some ⟨"503 Service Unavailable".toList⟩ }.driver
    "NoSuchLib".toList 0).1 ⟨"library name (NoSuchLib) not found".toList⟩ 1 rfl
    (.error ⟨"503 Service Unavailable".toList⟩) 2 rfl

end driver

/-! ## The path resolver -/

namespace driver

theorem scanItems_ok (name : GoString) (items : List library.Item) (allNames : List GoString)
    (item : library.Item) (h : scanItems name items allNames = .ok item) :
    ∃ pre post, items = pre ++ item :: post ∧ (∀ x ∈ pre, x.Name ≠ name) ∧ item.Name = name := by
  induction items generalizing allNames with
  | nil => simp [scanItems] at h
  | cons x xs ih =>
    by_cases hx : x.Name = name
    · simp [scanItems, hx] at h
      subst h
      exact ⟨[], xs, rfl, by simp, hx⟩
    · simp only [scanItems, hx, if_false] at h
      obtain ⟨pre, post, e, hpre, hitem⟩ := ih _ h
      refine ⟨x :: pre, post, by simp [e], ?_, hitem⟩
      intro y hy
      rcases List.mem_cons.mp hy with rfl | hy
      · exact hx
      · exact hpre y hy

theorem path_Join_dir (dir rel : GoString) (h : dir ≠ []) :
    path.Join [dir, rel] = path.Clean (dir ++ "/".toList ++ rel) := by
  cases dir with
  | nil => exact absurd rfl h
  | cons x xs => simp [path.Join, List.dropWhile, strings.Join]

theorem libItemDirOf_ne_nil (ds libraryId itemId : GoString) :
    libItemDirOf ds libraryId itemId ≠ [] := by
  simp [libItemDirOf]

theorem resolveInDatastore_error {σ : Type} (d : VCenterDriver σ)
    (isoPath libraryName isoFile : GoString) (lib : Library σ) (libItem : library.Item)
    (w : σ) (ev : List Event) (s : GoString) (e : GoError)
    (h : (resolveInDatastore d isoPath libraryName isoFile lib libItem w ev).result
      = .returned (s, some e)) : s = isoPath := by
  unfold resolveInDatastore at h
  split at h
  · simp at h
  · split at h
    · simp at h
      exact h.1.symm
    · simp only [] at h
      split at h
      · simp at h
        exact h.1.symm
      · simp at h

theorem resolveNames_error {σ : Type} (d : VCenterDriver σ)
    (isoPath libraryName itemName isoFile : GoString) (w : σ) (ev : List Event)
    (s : GoString) (e : GoError)
    (h : (resolveNames d isoPath libraryName itemName isoFile w ev).result
      = .returned (s, some e)) : s = isoPath := by
  unfold resolveNames at h
  simp only [] at h
  split at h
  · simp at h
    exact h.1.symm
  · split at h
    · simp at h
      exact h.1.symm
    · exact resolveInDatastore_error _ _ _ _ _ _ _ _ _ _ h

/-- C1: whenever `FindContentLibraryFileDatastorePath` returns a non-nil
error, the string it returns is its input, for every input, every driver and
every state of the outside world. -/
theorem resolve_error_returns_input {σ : Type} (d : VCenterDriver σ) (p : GoString) (w : σ)
    (s : GoString) (e : GoError)
    (h : (FindContentLibraryFileDatastorePath d p w).result = .returned (s, some e)) :
    s = p := by
  unfold FindContentLibraryFileDatastorePath at h
  simp only [] at h
  split at h
  · simp at h
    exact h.1.symm
  · split at h
    · simp at h
      exact h.1.symm
    · split at h
      · simp at h
      · split at h
        · simp at h
        · split at h
          · simp at h
          · exact resolveNames_error _ _ _ _ _ _ _ _ _ h

/-- Witness for C1: the lookup of `NoSuchLib` fails, the input comes back. -/
theorem resolve_error_returns_input_witness :
    (FindContentLibraryFileDatastorePath ubuntu.driver "NoSuchLib/Item/file.iso".toList 0).result
      = .returned ("NoSuchLib/Item/file.iso".toList,
          some ⟨"library name (NoSuchLib) not found".toList⟩)
    ∧ "NoSuchLib/Item/file.iso".toList = "NoSuchLib/Item/file.iso".toList :=
  ⟨by decide,
   resolve_error_returns_input ubuntu.driver "NoSuchLib/Item/file.iso".toList 0
    "NoSuchLib/Item/file.iso".toList ⟨"library name (NoSuchLib) not found".toList⟩ (by decide)⟩

theorem Validate_of_parts (s a b c : GoString)
    (h : strings.Split (strings.TrimLeft s "/".toList) '/' = [a, b, c]) :
    (LibraryFilePath.mk s).Validate = (⟨strings.TrimLeft s "/".toList⟩, none) := by
  unfold LibraryFilePath.Validate
  simp only [h]
  simp

/-- C3: when login succeeds, the input has the three segments `a`, `b`, `c`,
the library `a` is found, its listing holds `item` as first item named `b`, the
library has a first storage entry `st`, the datastore name of `st` is `ds` and
the file lookup in `[ds] contentlib-<lib id>/<item id>` for `c` answers `rel`,
then the resolver returns `path.Join(directory, rel)` with a nil error; it ends
with the logout call, whose answer (error or not) plays no part in the result. -/
theorem resolve_success {σ : Type} (d : VCenterDriver σ) (p a b c : GoString)
    (w w1 w2 w3 w4 w5 : σ) (lib : library.Library)
    (pre : List library.Item) (item : library.Item) (post : List library.Item)
    (st : library.StorageBackings) (more : List library.StorageBackings) (ds rel : GoString)
    (hlogin : d.Login w = (none, w1))
    (hseg : strings.Split (strings.TrimLeft p "/".toList) '/' = [a, b, c])
    (hlib : d.GetLibraryByName a w1 = (.ok lib, w2))
    (hitems : d.GetLibraryItems lib.ID w2 = (.ok (pre ++ item :: post), w3))
    (hpre : ∀ x ∈ pre, x.Name ≠ b) (hitem : item.Name = b)
    (hst : lib.Storage = st :: more)
    (hds : d.GetDatastoreName st.DatastoreID w3 = (.ok ds, w4))
    (hfile : d.GetDatastoreFilePath st.DatastoreID
        ("[".toList ++ ds ++ "] contentlib-".toList ++ lib.ID ++ "/".toList ++ item.ID) c w4
        = (.ok rel, w5)) :
    (FindContentLibraryFileDatastorePath d p w).result
      = .returned (path.Join
          ["[".toList ++ ds ++ "] contentlib-".toList ++ lib.ID ++ "/".toList ++ item.ID, rel],
          none)
    ∧ (FindContentLibraryFileDatastorePath d p w).world = (d.Logout w5).2
    ∧ (FindContentLibraryFileDatastorePath d p w).events.getLast? = some .Logout := by
  have hg := LibraryFilePath.getters_of_parts ⟨strings.TrimLeft p "/".toList⟩ a b c hseg
  have hscan := scanItems_first b pre item post [] hpre hitem
  have hdir : libItemDirOf ds lib.ID item.ID
      = "[".toList ++ ds ++ "] contentlib-".toList ++ lib.ID ++ "/".toList ++ item.ID := rfl
  simp only [FindContentLibraryFileDatastorePath, hlogin, Validate_of_parts p a b c hseg,
    hg.1, hg.2.1, hg.2.2, resolveNames, FindContentLibraryByName, hlib,
    FindContentLibraryItem, hitems, hscan, resolveInDatastore, firstStorage, hst, hds, hdir,
    hfile]
  simp

/-- Witness for C3: the end-to-end scenario of the specification, here with a
logout that fails. -/
theorem resolve_success_witness :
    (FindContentLibraryFileDatastorePath
        { ubuntu with logoutErr := some ⟨"session expired".toList⟩ }.driver
        "MyLib/UbuntuISO/ubuntu.iso".toList 0).result
      = .returned ("[datastore1] contentlib-lib-42/item-7/ubuntu.iso".toList, none) :=
  (resolve_success { ubuntu with logoutErr := some ⟨"session expired".toList⟩ }.driver
    "MyLib/UbuntuISO/ubuntu.iso".toList "MyLib".toList "UbuntuISO".toList "ubuntu.iso".toList
    0 1 2 3 4 5 ⟨"lib-42".toList, "MyLib".toList, [⟨"ds-1".toList⟩]⟩
    [] ⟨"item-7".toList, "UbuntuISO".toList⟩ [] ⟨"ds-1".toList⟩ [] "datastore1".toList
    "ubuntu.iso".toList rfl (by decide) rfl rfl (by decide) rfl rfl rfl rfl).1.trans (by decide)

end driver

/-! ## `path.Clean` on paths that are already clean -/

namespace driver

namespace path

theorem cleanLoop_isSome (rooted : Bool) (fuel : Nat) (rest out : GoString) (dotdot : Nat)
    (h : rest.length ≤ fuel) : (cleanLoop rooted fuel rest out dotdot).isSome = true := by
  induction fuel generalizing rest out dotdot with
  | zero =>
    cases rest with
    | nil => simp [cleanLoop]
    | cons c cs => simp at h
  | succ fuel ih =>
    cases rest with
    | nil => simp [cleanLoop]
    | cons c cs =>
      have hcs : cs.length ≤ fuel := by simpa using h
      have htail : cs.tail.length ≤ fuel := by
        have := List.length_tail cs
        omega
      unfold cleanLoop
      split
      · exact ih _ _ _ hcs
      · split
        · exact ih _ _ _ hcs
        · split
          · split
            · exact ih _ _ _ htail
            · split
              · exact ih _ _ _ htail
              · exact ih _ _ _ htail
          · rename_i hc _ _
            apply ih
            have hd : (c :: cs).dropWhile (fun x => decide (x ≠ '/'))
                = cs.dropWhile (fun x => decide (x ≠ '/')) := by
              simp [List.dropWhile, hc]
            rw [hd]
            exact le_trans (List.dropWhile_sublist _).length_le hcs

/-- A path element that `Clean` copies unchanged: not empty, not `.`, not `..`. -/
theorem span_real (seg tl : GoString) (hseg : '/' ∉ seg)
    (htl : tl = [] ∨ tl.head? = some '/') :
    (seg ++ tl).takeWhile (fun x => decide (x ≠ '/')) = seg
    ∧ (seg ++ tl).dropWhile (fun x => decide (x ≠ '/')) = tl := by
  induction seg with
  | nil =>
    cases tl with
    | nil => simp
    | cons x xs =>
      have hx : x = '/' := by simpa using htl
      subst hx
      simp [List.takeWhile, List.dropWhile]
  | cons c cs ih =>
    have hc : c ≠ '/' := fun e => hseg (by simp [e])
    have hcs : '/' ∉ cs := fun e => hseg (by simp [e])
    obtain ⟨h1, h2⟩ := ih hcs
    have hp : decide (c ≠ '/') = true := by simp [hc]
    simp only [List.cons_append, List.takeWhile_cons, List.dropWhile_cons, hp, if_true, h1, h2,
      and_self]

theorem cleanLoop_real_step (fuel : Nat) (seg tl out : GoString) (dotdot : Nat)
    (hne : seg ≠ []) (hdot : seg ≠ ['.']) (hdd : seg ≠ ['.', '.']) (hseg : '/' ∉ seg)
    (htl : tl = [] ∨ tl.head? = some '/') :
    cleanLoop false (fuel + 1) (seg ++ tl) out dotdot
      = cleanLoop false fuel tl
          ((if out.length ≠ 0 then out ++ ['/'] else out) ++ seg) dotdot := by
  obtain ⟨ht, hd⟩ := span_real seg tl hseg htl
  match seg, hne, hdot, hdd, hseg, ht, hd with
  | c :: t, _, hdot, hdd, hseg, ht, hd =>
    have hc : c ≠ '/' := fun e => hseg (by simp [e])
    have ht' : '/' ∉ t := fun e => hseg (by simp [e])
    have h2 : ¬ (c = '.' ∧ (t ++ tl = [] ∨ (t ++ tl).head? = some '/')) := by
      rintro ⟨rfl, h⟩
      cases t with
      | nil => exact hdot rfl
      | cons x xs =>
        have hx : x ≠ '/' := fun e => ht' (by simp [e])
        simp [hx] at h
    have h3 : ¬ (c = '.' ∧ (t ++ tl).head? = some '.' ∧
        ((t ++ tl).tail = [] ∨ (t ++ tl).tail.head? = some '/')) := by
      rintro ⟨rfl, h, h'⟩
      cases t with
      | nil => exact hdot rfl
      | cons x xs =>
        have hx : x = '.' := by simpa using h
        subst hx
        cases xs with
        | nil => exact hdd rfl
        | cons y ys =>
          have hy : y ≠ '/' := fun e => ht' (by simp [e])
          simp [hy] at h'
    simp only [List.cons_append] at ht hd ⊢
    rw [cleanLoop]
    simp only [hc, h2, h3, if_false, ht, hd]
    simp

theorem Join_head_slash (seg : GoString) (segs : List GoString) :
    strings.Join (seg :: segs) ['/'] = seg ++ (if segs = [] then [] else '/' :: strings.Join segs ['/']) := by
  cases segs with
  | nil => simp [strings.Join]
  | cons x xs => simp [strings.Join]

theorem cleanLoop_real (segs : List GoString) (hne : segs ≠ [])
    (hreal : ∀ seg ∈ segs, seg ≠ [] ∧ seg ≠ ['.'] ∧ seg ≠ ['.', '.'] ∧ '/' ∉ seg)
    (fuel : Nat) (out : GoString) (dotdot : Nat)
    (hfuel : (strings.Join segs ['/']).length ≤ fuel) :
    cleanLoop false fuel (strings.Join segs ['/']) out dotdot
      = some ((if out.length ≠ 0 then out ++ ['/'] else out) ++ strings.Join segs ['/']) := by
  induction segs generalizing fuel out with
  | nil => exact absurd rfl hne
  | cons seg rest ih =>
    obtain ⟨h1, h2, h3, h4⟩ := hreal seg (by simp)
    have hlen : 1 ≤ seg.length := by
      cases seg with
      | nil => exact absurd rfl h1
      | cons x xs => simp
    rw [Join_head_slash] at hfuel ⊢
    by_cases hrest : rest = []
    · subst hrest
      simp only [if_true, List.append_nil] at hfuel ⊢
      obtain ⟨f, rfl⟩ : ∃ f, fuel = f + 1 := ⟨fuel - 1, by omega⟩
      have := cleanLoop_real_step f seg [] out dotdot h1 h2 h3 h4 (Or.inl rfl)
      rw [List.append_nil] at this
      rw [this]
      simp [cleanLoop]
    · simp only [hrest, if_false] at hfuel ⊢
      have hl := hfuel
      rw [List.length_append, List.length_cons] at hl
      obtain ⟨f, rfl⟩ : ∃ f, fuel = f + 2 := ⟨fuel - 2, by omega⟩
      rw [cleanLoop_real_step (f + 1) seg ('/' :: strings.Join rest ['/']) out dotdot
        h1 h2 h3 h4 (Or.inr rfl)]
      rw [cleanLoop]
      simp only [if_true]
      rw [ih hrest (fun s hs => hreal s (by simp [hs])) f _ (by omega)]
      have hout : ((if out.length ≠ 0 then out ++ ['/'] else out) ++ seg).length ≠ 0 := by
        rw [List.length_append]
        omega
      rw [if_pos hout]
      simp

/-- A path whose `/`-separated elements are all non-empty and none of them `.`
or `..` is returned unchanged by `Clean`. -/
theorem Clean_eq_self (x : GoString)
    (h : ∀ seg ∈ strings.Split x '/', seg ≠ [] ∧ seg ≠ ['.'] ∧ seg ≠ ['.', '.']) :
    Clean x = x := by
  have hjoin : strings.Join (strings.Split x '/') ['/'] = x := by
    simpa [strings.Split] using strings.Join_splitFrom '/' x []
  have hne : strings.Split x '/' ≠ [] := by
    intro e
    have := strings.splitFrom_length '/' x []
    rw [strings.Split] at e
    rw [e] at this
    simp at this
  have hreal : ∀ seg ∈ strings.Split x '/',
      seg ≠ [] ∧ seg ≠ ['.'] ∧ seg ≠ ['.', '.'] ∧ '/' ∉ seg := fun seg hs =>
    ⟨(h seg hs).1, (h seg hs).2.1, (h seg hs).2.2,
      strings.not_mem_of_mem_splitFrom '/' x [] seg (by simp) hs⟩
  have hloop := cleanLoop_real _ hne hreal x.length [] 0 (by rw [hjoin])
  rw [hjoin] at hloop
  cases x with
  | nil =>
    have := h [] (by simp [strings.Split, strings.splitFrom])
    exact absurd rfl this.1
  | cons c cs =>
    have hc : c ≠ '/' := by
      intro e
      subst e
      have := h [] (by simp [strings.Split, strings.splitFrom])
      exact absurd rfl this.1
    unfold Clean
    simp only [List.head?_cons, Option.some.injEq, hc, decide_False, Bool.false_eq_true,
      if_false, reduceCtorEq]
    rw [hloop]
    simp

end path

end driver

/-! ## The output format, the session and the storage list -/

namespace driver

theorem FindContentLibraryByName_ok {σ : Type} (d : VCenterDriver σ) (name : GoString) (w : σ)
    (lib : Library σ) (h : (FindContentLibraryByName d name w).result = .ok lib) :
    d.GetLibraryByName name w = (.ok lib.library, (FindContentLibraryByName d name w).world) := by
  unfold FindContentLibraryByName at h ⊢
  split at h
  · split at h <;> simp at h
  · rename_i l w1 heq
    simp only [Except.ok.injEq] at h
    subst h
    simp [heq]

theorem FindContentLibraryItem_ok {σ : Type} (d : VCenterDriver σ) (libraryId name : GoString)
    (w : σ) (item : library.Item)
    (h : (FindContentLibraryItem d libraryId name w).result = .ok item) :
    ∃ pre post,
      d.GetLibraryItems libraryId w
        = (.ok (pre ++ item :: post), (FindContentLibraryItem d libraryId name w).world)
      ∧ (∀ x ∈ pre, x.Name ≠ name) ∧ item.Name = name := by
  unfold FindContentLibraryItem at h ⊢
  split at h
  · simp at h
  · rename_i items w1 heq
    split at h
    · rename_i found hscan
      simp only [Except.ok.injEq] at h
      subst h
      obtain ⟨pre, post, e, hpre, hitem⟩ := scanItems_ok _ _ _ _ hscan
      refine ⟨pre, post, ?_, hpre, hitem⟩
      simp [heq, hscan, e]
    · simp at h

theorem resolveInDatastore_ok {σ : Type} (d : VCenterDriver σ)
    (isoPath libraryName isoFile : GoString) (lib : Library σ) (libItem : library.Item)
    (w : σ) (ev : List Event) (s : GoString)
    (h : (resolveInDatastore d isoPath libraryName isoFile lib libItem w ev).result
      = .returned (s, none)) :
    ∃ st more ds rel w1 w2,
      lib.library.Storage = st :: more
      ∧ d.GetDatastoreName st.DatastoreID w = (.ok ds, w1)
      ∧ d.GetDatastoreFilePath st.DatastoreID (libItemDirOf ds lib.library.ID libItem.ID)
          isoFile w1 = (.ok rel, w2)
      ∧ s = path.Join [libItemDirOf ds lib.library.ID libItem.ID, rel] := by
  unfold resolveInDatastore at h
  split at h
  · simp at h
  · rename_i st hst
    have hst' : ∃ more, lib.library.Storage = st :: more := by
      cases hS : lib.library.Storage with
      | nil =>
        rw [hS] at hst
        simp [firstStorage] at hst
      | cons st' more =>
        rw [hS] at hst
        simp only [firstStorage, Outcome.returned.injEq] at hst
        exact ⟨more, by rw [hst]⟩
    obtain ⟨more, hmore⟩ := hst'
    split at h
    · simp at h
    · rename_i ds w1 hds
      simp only [] at h
      split at h
      · simp at h
      · rename_i rel w2 hfile
        simp only [Outcome.returned.injEq, Prod.mk.injEq, and_true] at h
        exact ⟨st, more, ds, rel, w1, w2, hmore, hds, hfile, h.symm⟩

theorem resolveNames_ok {σ : Type} (d : VCenterDriver σ)
    (isoPath libraryName itemName isoFile : GoString) (w : σ) (ev : List Event) (s : GoString)
    (h : (resolveNames d isoPath libraryName itemName isoFile w ev).result
      = .returned (s, none)) :
    ∃ (lib : library.Library) (pre : List library.Item) (item : library.Item)
      (post : List library.Item) (st : library.StorageBackings)
      (more : List library.StorageBackings) (ds rel : GoString) (w2 w3 w4 w5 : σ),
      d.GetLibraryByName libraryName w = (.ok lib, w2)
      ∧ d.GetLibraryItems lib.ID w2 = (.ok (pre ++ item :: post), w3)
      ∧ (∀ x ∈ pre, x.Name ≠ itemName) ∧ item.Name = itemName
      ∧ lib.Storage = st :: more
      ∧ d.GetDatastoreName st.DatastoreID w3 = (.ok ds, w4)
      ∧ d.GetDatastoreFilePath st.DatastoreID (libItemDirOf ds lib.ID item.ID) isoFile w4
          = (.ok rel, w5)
      ∧ s = path.Join [libItemDirOf ds lib.ID item.ID, rel] := by
  unfold resolveNames at h
  simp only [] at h
  split at h
  · simp at h
  · rename_i lib hlib
    split at h
    · simp at h
    · rename_i item hitem
      have h1 := FindContentLibraryByName_ok d libraryName w lib hlib
      obtain ⟨pre, post, h2, hpre, hname⟩ := FindContentLibraryItem_ok d _ _ _ item hitem
      obtain ⟨st, more, ds, rel, w4, w5, hst, hds, hfile, hs⟩ :=
        resolveInDatastore_ok _ _ _ _ _ _ _ _ _ h
      exact ⟨lib.library, pre, item, post, st, more, ds, rel, _, _, w4, w5, h1, h2, hpre, hname,
        hst, hds, hfile, hs⟩

/-- C2, as the claim states it, fails: when the file lookup answers
`./ubuntu.iso` the resolver returns `[datastore1] contentlib-lib-42/item-7/ubuntu.iso`
with a nil error, which is not the concatenation
`[datastore1] contentlib-lib-42/item-7/./ubuntu.iso`. -/
theorem resolve_output_not_plain_concatenation :
    (FindContentLibraryFileDatastorePath
        { ubuntu with fileAnswer := fun name => "./".toList ++ name }.driver
        "MyLib/UbuntuISO/ubuntu.iso".toList 0).result
      = .returned ("[datastore1] contentlib-lib-42/item-7/ubuntu.iso".toList, none)
    ∧ { ubuntu with fileAnswer := fun name => "./".toList ++ name }.driver.GetDatastoreFilePath
        "ds-1".toList "[datastore1] contentlib-lib-42/item-7".toList "ubuntu.iso".toList 4
      = (.ok "./ubuntu.iso".toList, 5)
    ∧ "[datastore1] contentlib-lib-42/item-7/ubuntu.iso".toList
      ≠ "[".toList ++ "datastore1".toList ++ "] contentlib-".toList ++ "lib-42".toList
          ++ "/".toList ++ "item-7".toList ++ "/".toList ++ "./ubuntu.iso".toList :=
  ⟨by decide, rfl, by decide⟩

/-- C2, amended: whenever the resolver returns a nil error, login succeeded,
the input had three segments `a`, `b`, `c`, the library `a`, its first item
named `b`, the datastore name `ds` of its first storage entry and the file path
`rel` were all found, and the returned string is `path.Clean` of the
concatenation `[ds] contentlib-<lib id>/<item id>/<rel>`; it is that
concatenation itself whenever none of its `/`-separated elements is empty, `.`
or `..`. -/
theorem resolve_output_format {σ : Type} (d : VCenterDriver σ) (p : GoString) (w : σ)
    (s : GoString)
    (h : (FindContentLibraryFileDatastorePath d p w).result = .returned (s, none)) :
    ∃ (a b c : GoString) (lib : library.Library) (pre : List library.Item)
      (item : library.Item) (post : List library.Item) (st : library.StorageBackings)
      (more : List library.StorageBackings) (ds rel : GoString) (w1 w2 w3 w4 w5 : σ),
      d.Login w = (none, w1)
      ∧ strings.Split (strings.TrimLeft p "/".toList) '/' = [a, b, c]
      ∧ d.GetLibraryByName a w1 = (.ok lib, w2)
      ∧ d.GetLibraryItems lib.ID w2 = (.ok (pre ++ item :: post), w3)
      ∧ (∀ x ∈ pre, x.Name ≠ b) ∧ item.Name = b
      ∧ lib.Storage = st :: more
      ∧ d.GetDatastoreName st.DatastoreID w3 = (.ok ds, w4)
      ∧ d.GetDatastoreFilePath st.DatastoreID
          ("[".toList ++ ds ++ "] contentlib-".toList ++ lib.ID ++ "/".toList ++ item.ID) c w4
          = (.ok rel, w5)
      ∧ s = path.Clean ("[".toList ++ ds ++ "] contentlib-".toList ++ lib.ID ++ "/".toList
              ++ item.ID ++ "/".toList ++ rel)
      ∧ ((∀ seg ∈ strings.Split ("[".toList ++ ds ++ "] contentlib-".toList ++ lib.ID
              ++ "/".toList ++ item.ID ++ "/".toList ++ rel) '/',
            seg ≠ [] ∧ seg ≠ ".".toList ∧ seg ≠ "..".toList) →
          s = "[".toList ++ ds ++ "] contentlib-".toList ++ lib.ID ++ "/".toList
              ++ item.ID ++ "/".toList ++ rel) := by
  unfold FindContentLibraryFileDatastorePath at h
  simp only [] at h
  split at h
  · simp at h
  · rename_i w1 hlogin
    split at h
    · simp at h
    · rename_i l hval
      have hnone : ((LibraryFilePath.mk p).Validate).2 = none := by rw [hval]
      have hl : l = ⟨strings.TrimLeft p "/".toList⟩ := by
        have := LibraryFilePath.Validate_path p
        rw [hval] at this
        cases l
        simpa using this
      obtain ⟨a, b, c, hseg⟩ := LibraryFilePath.Validate_parts p hnone
      have hg := LibraryFilePath.getters_of_parts l a b c (by rw [hl]; exact hseg)
      rw [hg.1, hg.2.1, hg.2.2] at h
      simp only [] at h
      obtain ⟨lib, pre, item, post, st, more, ds, rel, w2, w3, w4, w5, h1, h2, h3, h4, h5, h6,
        h7, h8⟩ := resolveNames_ok _ _ _ _ _ _ _ _ h
      have hclean : s = path.Clean ("[".toList ++ ds ++ "] contentlib-".toList ++ lib.ID
          ++ "/".toList ++ item.ID ++ "/".toList ++ rel) := by
        rw [h8, path_Join_dir _ _ (libItemDirOf_ne_nil _ _ _)]
        rfl
      refine ⟨a, b, c, lib, pre, item, post, st, more, ds, rel, w1, w2, w3, w4, w5, hlogin, hseg,
        h1, h2, h3, h4, h5, h6, h7, hclean, ?_⟩
      intro hsegs
      rw [hclean]
      exact path.Clean_eq_self _ hsegs

/-- Witness for the amended C2: the end-to-end scenario of the specification. -/
theorem resolve_output_format_witness :
    ∃ (a b c : GoString) (lib : library.Library) (pre : List library.Item)
      (item : library.Item) (post : List library.Item) (st : library.StorageBackings)
      (more : List library.StorageBackings) (ds rel : GoString) (w1 w2 w3 w4 w5 : Nat),
      ubuntu.driver.Login 0 = (none, w1)
      ∧ strings.Split (strings.TrimLeft "MyLib/UbuntuISO/ubuntu.iso".toList "/".toList) '/'
          = [a, b, c]
      ∧ ubuntu.driver.GetLibraryByName a w1 = (.ok lib, w2)
      ∧ ubuntu.driver.GetLibraryItems lib.ID w2 = (.ok (pre ++ item :: post), w3)
      ∧ (∀ x ∈ pre, x.Name ≠ b) ∧ item.Name = b
      ∧ lib.Storage = st :: more
      ∧ ubuntu.driver.GetDatastoreName st.DatastoreID w3 = (.ok ds, w4)
      ∧ ubuntu.driver.GetDatastoreFilePath st.DatastoreID
          ("[".toList ++ ds ++ "] contentlib-".toList ++ lib.ID ++ "/".toList ++ item.ID) c w4
          = (.ok rel, w5)
      ∧ "[datastore1] contentlib-lib-42/item-7/ubuntu.iso".toList
          = path.Clean ("[".toList ++ ds ++ "] contentlib-".toList ++ lib.ID ++ "/".toList
              ++ item.ID ++ "/".toList ++ rel)
      ∧ ((∀ seg ∈ strings.Split ("[".toList ++ ds ++ "] contentlib-".toList ++ lib.ID
              ++ "/".toList ++ item.ID ++ "/".toList ++ rel) '/',
            seg ≠ [] ∧ seg ≠ ".".toList ∧ seg ≠ "..".toList) →
          "[datastore1] contentlib-lib-42/item-7/ubuntu.iso".toList
            = "[".toList ++ ds ++ "] contentlib-".toList ++ lib.ID ++ "/".toList
              ++ item.ID ++ "/".toList ++ rel) :=
  resolve_output_format ubuntu.driver "MyLib/UbuntuISO/ubuntu.iso".toList 0
    "[datastore1] contentlib-lib-42/item-7/ubuntu.iso".toList (by decide)

theorem logout_not_mem_FindContentLibraryByName {σ : Type} (d : VCenterDriver σ)
    (name : GoString) (w : σ) : Event.Logout ∉ (FindContentLibraryByName d name w).events := by
  unfold FindContentLibraryByName
  split
  · split <;> simp [logLibraries]
  · simp

theorem logout_not_mem_FindContentLibraryItem {σ : Type} (d : VCenterDriver σ)
    (libraryId name : GoString) (w : σ) :
    Event.Logout ∉ (FindContentLibraryItem d libraryId name w).events := by
  unfold FindContentLibraryItem
  split
  · simp
  · split <;> simp

theorem resolveInDatastore_logout {σ : Type} (d : VCenterDriver σ)
    (isoPath libraryName isoFile : GoString) (lib : Library σ) (libItem : library.Item)
    (w : σ) (ev : List Event) (hev : Event.Logout ∉ ev) :
    Event.Logout ∈ (resolveInDatastore d isoPath libraryName isoFile lib libItem w ev).events
      ↔ ∃ s, (resolveInDatastore d isoPath libraryName isoFile lib libItem w ev).result
          = .returned (s, none) := by
  unfold resolveInDatastore
  split
  · simp [hev]
  · split
    · simp [hev]
    · simp only []
      split
      · simp [hev]
      · simp

theorem resolveNames_logout {σ : Type} (d : VCenterDriver σ)
    (isoPath libraryName itemName isoFile : GoString) (w : σ) (ev : List Event)
    (hev : Event.Logout ∉ ev) :
    Event.Logout ∈ (resolveNames d isoPath libraryName itemName isoFile w ev).events
      ↔ ∃ s, (resolveNames d isoPath libraryName itemName isoFile w ev).result
          = .returned (s, none) := by
  have h1 := logout_not_mem_FindContentLibraryByName d libraryName w
  unfold resolveNames
  simp only []
  split
  · simp [hev, h1]
  · rename_i lib _
    have h2 := logout_not_mem_FindContentLibraryItem d lib.library.ID itemName
      (FindContentLibraryByName d libraryName w).world
    split
    · simp [hev, h1, h2]
    · apply resolveInDatastore_logout
      simp [hev, h1, h2]

/-- `Logout` is called by the resolver on its success path and on no other:
it occurs among the events exactly when the returned error is nil. -/
theorem resolve_logout_iff_success {σ : Type} (d : VCenterDriver σ) (p : GoString) (w : σ) :
    Event.Logout ∈ (FindContentLibraryFileDatastorePath d p w).events
      ↔ ∃ s, (FindContentLibraryFileDatastorePath d p w).result = .returned (s, none) := by
  unfold FindContentLibraryFileDatastorePath
  simp only []
  split
  · simp
  · split
    · simp
    · split
      · simp
      · split
        · simp
        · split
          · simp
          · apply resolveNames_logout
            simp

/-- The resolver panics only at `lib.library.Storage[0]`: the three segment
getters are in range after a successful `Validate`, so a panic means that the
library found by name has an empty storage list. -/
theorem resolve_panics_only_on_empty_storage {σ : Type} (d : VCenterDriver σ) (p : GoString)
    (w : σ) (reason : GoString)
    (h : (FindContentLibraryFileDatastorePath d p w).result = .panicked reason) :
    ∃ (a : GoString) (w1 w2 : σ) (lib : library.Library),
      d.GetLibraryByName a w1 = (.ok lib, w2) ∧ lib.Storage = [] := by
  unfold FindContentLibraryFileDatastorePath at h
  simp only [] at h
  split at h
  · simp at h
  · rename_i w1 hlogin
    split at h
    · simp at h
    · rename_i l hval
      have hnone : ((LibraryFilePath.mk p).Validate).2 = none := by rw [hval]
      have hl : l = ⟨strings.TrimLeft p "/".toList⟩ := by
        have := LibraryFilePath.Validate_path p
        rw [hval] at this
        cases l
        simpa using this
      obtain ⟨a, b, c, hseg⟩ := LibraryFilePath.Validate_parts p hnone
      have hg := LibraryFilePath.getters_of_parts l a b c (by rw [hl]; exact hseg)
      rw [hg.1, hg.2.1, hg.2.2] at h
      simp only [resolveNames] at h
      split at h
      · simp at h
      · rename_i lib hlib
        split at h
        · simp at h
        · have h1 := FindContentLibraryByName_ok d a w1 lib hlib
          refine ⟨a, w1, _, lib.library, h1, ?_⟩
          unfold resolveInDatastore at h
          cases hS : lib.library.Storage with
          | nil => rfl
          | cons st more =>
            rw [hS] at h
            simp only [firstStorage] at h
            split at h
            · simp at h
            · split at h <;> simp at h

/-- C7: the code does not release the session on a failure path.  With a
successful login and the one-segment input `plainfile.iso` the resolver returns
the input with the format error after a single remote call, the login; `Logout`
is never called.  The same holds when the library lookup fails. -/
theorem resolve_failure_skips_logout :
    (FindContentLibraryFileDatastorePath ubuntu.driver "plainfile.iso".toList 0).result
      = .returned ("plainfile.iso".toList,
          some ⟨("Not a valid Content Library File path. The path must contain the nanmes " ++
                 "for the library, item and file.").toList⟩)
    ∧ Event.Login ∈ (FindContentLibraryFileDatastorePath ubuntu.driver "plainfile.iso".toList 0).events
    ∧ Event.Logout ∉ (FindContentLibraryFileDatastorePath ubuntu.driver "plainfile.iso".toList 0).events
    ∧ (FindContentLibraryFileDatastorePath ubuntu.driver "plainfile.iso".toList 0).world = 1
    ∧ Event.Login ∈
        (FindContentLibraryFileDatastorePath ubuntu.driver "NoSuchLib/Item/file.iso".toList 0).events
    ∧ Event.Logout ∉
        (FindContentLibraryFileDatastorePath ubuntu.driver "NoSuchLib/Item/file.iso".toList 0).events := by
  decide

/-- C9: the code panics on a library without storage entries.  With the library
`MyLib` found, its item `UbuntuISO` found and an empty `Storage` list, the
evaluation of `lib.library.Storage[0]` is out of range and the resolver does not
return. -/
theorem resolve_panics_on_empty_storage :
    (FindContentLibraryFileDatastorePath { ubuntu with storage := [] }.driver
        "MyLib/UbuntuISO/ubuntu.iso".toList 0).result
      = .panicked "runtime error: index out of range [0] with length 0".toList := by
  decide

end driver
